import Mathlib

/-!
Verification of the apkfile repository (badging-text extraction, split
classification, bundle aggregation and device-compatibility selection).

The Python sources are shallowly embedded: the badging parser
(`ApkFile.__init__` together with `_extraction_patterns` in
`apkfile/__init__.py`) is modelled as an executable function from the raw
badging text (a list of characters) to an `Except`-value; the regular
expressions of `_extraction_patterns` are implemented as literal scanners
with Python `re.findall` semantics; the zip-bundle extraction
(`_BaseZipApkFile._extract`) is modelled as a state transformer over an
environment that supplies the archive member list and the per-member parse
outcomes (the external aapt invocation); the device-install selection
(`install_apks`) is modelled including the exact iterator semantics of the
`device_abis` generator expression.
-/

set_option maxRecDepth 4000

/-! ### Characters and small Python string helpers -/

/-- The apostrophe character (the quote used throughout aapt badging text). -/
def squote : Char := Char.ofNat 39

/-- The newline character. -/
def nlChar : Char := Char.ofNat 10

/-- Python `\s` (ASCII whitespace: space, tab, newline, carriage return,
form feed, vertical tab). -/
def isPySpace (c : Char) : Bool :=
  c = ' ' || c = Char.ofNat 9 || c = nlChar || c = Char.ofNat 13 ||
  c = Char.ofNat 12 || c = Char.ofNat 11

/-- `[a-z]`. -/
def isLowerAZ (c : Char) : Bool := 'a' ≤ c && c ≤ 'z'

/-- `[A-Z]`. -/
def isUpperAZ (c : Char) : Bool := 'A' ≤ c && c ≤ 'Z'

/-- `[0-9]`. -/
def isDigit09 (c : Char) : Bool := '0' ≤ c && c ≤ '9'

/-- Character class of the `supported_screens` capture: `[a-z'\s]`. -/
def isScreensChar (c : Char) : Bool := isLowerAZ c || c = squote || isPySpace c

/-- Character class of the `langs` capture: `[a-zA-Z0-9'\s\-\_]`. -/
def isLangsChar (c : Char) : Bool :=
  isLowerAZ c || isUpperAZ c || isDigit09 c || c = squote || isPySpace c ||
  c = '-' || c = '_'

/-- Character class of the `densities` capture: `[0-9'\s]`. -/
def isDensChar (c : Char) : Bool := isDigit09 c || c = squote || isPySpace c

/-- Character class of the lang filter `[\dA-Za-z\-]`. -/
def isLangTagChar (c : Char) : Bool :=
  isDigit09 c || isLowerAZ c || isUpperAZ c || c = '-'

/-- `l₁` is a prefix of `l₂` (as Python literal matching). -/
def listPre : List Char → List Char → Bool
  | [], _ => true
  | _ :: _, [] => false
  | a :: as1, b :: bs => a = b && listPre as1 bs

/-- `suf` is a suffix of `l` (Python `str.endswith`). -/
def endsWithL (suf l : List Char) : Bool := listPre suf.reverse l.reverse

/-- `nd` occurs as a contiguous substring of `hay` (Python `in` on strings). -/
def hasSubstr (nd : List Char) : List Char → Bool
  | [] => listPre nd []
  | c :: cs => listPre nd (c :: cs) || hasSubstr nd cs

/-- Python `s.split('.')[-1]`: the part after the last dot. -/
def lastDotSeg (s : List Char) : List Char :=
  (s.reverse.takeWhile (fun c => c ≠ '.')).reverse

/-- Python `str.strip()` (ASCII whitespace model). -/
def pyStrip (s : List Char) : List Char :=
  ((s.dropWhile isPySpace).reverse.dropWhile isPySpace).reverse

/-- Value of a digit list in base 10 (underscores skipped). -/
def digitsVal (l : List Char) : Nat :=
  l.foldl (fun acc c => if c = '_' then acc else 10 * acc + (c.toNat - 48)) 0

/-- Shape test for the digit part accepted by Python `int()`:
nonempty, starts and ends with a digit, consists of digits and single
underscores (an underscore must sit between two digits). -/
def pyIntDigitsOk (l : List Char) : Bool :=
  match l with
  | [] => false
  | c :: _ =>
    isDigit09 c &&
    l.all (fun c => isDigit09 c || c = '_') &&
    (match l.getLast? with
     | some d => isDigit09 d
     | none => false) &&
    !(hasSubstr ['_', '_'] l)

/-- Python `int(s)` on a string: strips whitespace, accepts one optional
sign and a digit run with single underscore separators; `none` models a
raised `ValueError`. -/
def pyInt (s : List Char) : Option Int :=
  match pyStrip s with
  | [] => none
  | c :: rest =>
    if c = '-' then
      if pyIntDigitsOk rest then some (-(digitsVal rest : Int)) else none
    else if c = '+' then
      if pyIntDigitsOk rest then some (digitsVal rest : Int) else none
    else if pyIntDigitsOk (c :: rest) then some (digitsVal (c :: rest) : Int)
    else none

/-! ### Python dict model (insertion order, update in place) -/

/-- Insert into a Python dict: replace in place when the key exists,
append otherwise. -/
def dictInsert (d : List (List Char × List Char)) (k v : List Char) :
    List (List Char × List Char) :=
  if d.any (fun p => p.1 = k) then
    d.map (fun p => if p.1 = k then (k, v) else p)
  else d ++ [(k, v)]

/-- Build a Python dict from a stream of key-value items
(`{k: v for k, v in pairs}`): later items win on duplicate keys. -/
def pyDictOf (pairs : List (List Char × List Char)) :
    List (List Char × List Char) :=
  pairs.foldl (fun d p => dictInsert d p.1 p.2) []

/-- Lookup in the dict model. -/
def dictLookup (d : List (List Char × List Char)) (k : List Char) :
    Option (List Char) :=
  (d.find? (fun p => p.1 = k)).map (fun p => p.2)

/-! ### The enums of `apkfile/__init__.py` -/

/-- `InstallLocation` enum. -/
inductive InstallLocation where
  | AUTO
  | INTERNAL_ONLY
  | PREFER_EXTERNAL
deriving DecidableEq

/-- `Abi` enum, in declaration order. -/
inductive Abi where
  | ARM
  | ARM7
  | ARM64
  | X86
  | X86_64
  | UNKNOWN
deriving DecidableEq

/-- The members of `Abi` in declaration order. -/
def Abi.members : List Abi :=
  [.ARM, .ARM7, .ARM64, .X86, .X86_64, .UNKNOWN]

/-- `Abi.all()`: every member except `UNKNOWN`. -/
def Abi.all : List Abi := Abi.members.filter (fun a => a ≠ .UNKNOWN)

/-- `_compatibility_map` of `apkfile/__init__.py`. -/
def compatibilityMap : Abi → List Abi
  | .X86_64 => [.X86, .ARM64, .ARM7, .ARM]
  | .X86 => [.ARM64, .ARM7, .ARM]
  | .ARM64 => [.ARM7, .ARM]
  | .ARM7 => [.ARM]
  | .ARM => []
  | .UNKNOWN => []

/-- `Abi.is_compatible_with`: equality, or membership in the other row of
`_compatibility_map`. -/
def Abi.is_compatible_with (a b : Abi) : Bool :=
  if a = b then true else (compatibilityMap a).contains b

/-- Enum value lookup for `Abi(value)` with the `_missing_` fallback to
`UNKNOWN`. -/
def Abi_call (s : List Char) : Abi :=
  if s = "armeabi".data then .ARM
  else if s = "armeabi-v7a".data then .ARM7
  else if s = "arm64-v8a".data then .ARM64
  else if s = "x86".data then .X86
  else if s = "x86_64".data then .X86_64
  else .UNKNOWN

/-- A value passed to the `InstallLocation` constructor: the parser passes
either a string or the whole list of regex matches. -/
inductive PyVal where
  | str (s : List Char)
  | strList (l : List (List Char))
deriving DecidableEq

/-- Enum value lookup for `InstallLocation(value)`: a string equal to a
member value selects that member; anything else (including list-typed
values) falls through to `_missing_`, which returns `AUTO`. -/
def InstallLocation_call (v : PyVal) : InstallLocation :=
  match v with
  | .str s =>
    if s = "auto".data then .AUTO
    else if s = "internalOnly".data then .INTERNAL_ONLY
    else if s = "preferExternal".data then .PREFER_EXTERNAL
    else .AUTO
  | .strList _ => .AUTO

/-- `SplitType` enum. -/
inductive SplitType where
  | LANGUAGE
  | DPI
  | ABI
  | OTHER
deriving DecidableEq

/-! ### Claim C1: the ABI compatibility lattice -/

/-- The lattice exactly as the specification states it. -/
def latticeSpec : Abi → List Abi
  | .X86_64 => [.X86, .ARM64, .ARM7, .ARM]
  | .X86 => [.ARM64, .ARM7, .ARM]
  | .ARM64 => [.ARM7, .ARM]
  | .ARM7 => [.ARM]
  | .ARM => []
  | .UNKNOWN => []

/-! ### The regex layer: `re.findall` for each `_extraction_patterns` entry

Every pattern of `_extraction_patterns` is a literal prefix followed by one
or two capture groups.  `re.findall` scans the text left to right,
restarting one character further on failure and after the whole match on
success.  The scanners below implement exactly that for each pattern
shape. -/

/-- A single `re.findall` result: one string for one-group patterns, a
pair for the two-group `labels`/`icons` patterns. -/
inductive RMatch where
  | one (s : List Char)
  | two (a b : List Char)
deriving DecidableEq

/-- The (first) captured group of a match. -/
def RMatch.s : RMatch → List Char
  | .one s => s
  | .two a _ => a

/-- The two groups of a match (the `labels`/`icons` patterns only ever
produce `two`-matches; a `one`-match is duplicated). -/
def RMatch.pair : RMatch → (List Char × List Char)
  | .one s => (s, s)
  | .two a b => (a, b)

/-- Try `PRE([^']+)'` at the head of `t`: the literal prefix, then a
nonempty run of non-quote characters, then a closing quote.  Returns the
capture and the matched length. -/
def matchSimpleQuote (pre : List Char) (t : List Char) :
    Option (RMatch × Nat) :=
  if listPre pre t then
    let rest := t.drop pre.length
    let cap := rest.takeWhile (fun c => c ≠ squote)
    if cap.isEmpty then none
    else
      match rest.drop cap.length with
      | c :: _ =>
        if c = squote then some (.one cap, pre.length + cap.length + 1) else none
      | [] => none
  else none

/-- Largest index `k ≥ 1` such that `l[k]` is a quote (the backtracking
point of a greedy `([cls]+)'` capture whose class contains the quote). -/
def lastQuotePos : List Char → Option Nat
  | [] => none
  | x :: xs =>
    match lastQuotePos xs with
    | some k => some (k + 1)
    | none => if x = squote then some 0 else none

/-- Try `PRE([cls]+)'` at the head of `t` where the class `cls` contains
the quote character: greedy run, then backtrack to the last quote inside
the run (which must leave a nonempty capture). -/
def matchClassCap (pre : List Char) (cls : Char → Bool) (t : List Char) :
    Option (RMatch × Nat) :=
  if listPre pre t then
    let run := (t.drop pre.length).takeWhile cls
    match lastQuotePos run with
    | some k =>
      if 1 ≤ k then some (.one (run.take k), pre.length + k + 1) else none
    | none => none
  else none

/-- Try `PRE(.*)` at the head of `t`: capture to the end of the line. -/
def matchDotStar (pre : List Char) (t : List Char) : Option (RMatch × Nat) :=
  if listPre pre t then
    let cap := (t.drop pre.length).takeWhile (fun c => c ≠ nlChar)
    some (.one cap, pre.length + cap.length)
  else none

/-- Try `application-label-([a-z]{2}):'([^']+)'` at the head of `t`. -/
def matchLabel (t : List Char) : Option (RMatch × Nat) :=
  let pre := "application-label-".data
  if listPre pre t then
    match t.drop pre.length with
    | c1 :: c2 :: r1 =>
      if isLowerAZ c1 && isLowerAZ c2 then
        match r1 with
        | d0 :: d1 :: r2 =>
          if d0 = ':' && d1 = squote then
            let cap := r2.takeWhile (fun c => c ≠ squote)
            if cap.isEmpty then none
            else
              match r2.drop cap.length with
              | e :: _ =>
                if e = squote then
                  some (.two [c1, c2] cap, pre.length + 4 + cap.length + 1)
                else none
              | [] => none
          else none
        | _ => none
      else none
    | _ => none
  else none

/-- Try `application-icon-([0-9]+):'([^']+)'` at the head of `t`. -/
def matchIcon (t : List Char) : Option (RMatch × Nat) :=
  let pre := "application-icon-".data
  if listPre pre t then
    let rest := t.drop pre.length
    let digs := rest.takeWhile isDigit09
    if digs.isEmpty then none
    else
      match rest.drop digs.length with
      | d0 :: d1 :: r2 =>
        if d0 = ':' && d1 = squote then
          let cap := r2.takeWhile (fun c => c ≠ squote)
          if cap.isEmpty then none
          else
            match r2.drop cap.length with
            | e :: _ =>
              if e = squote then
                some (.two digs cap, pre.length + digs.length + 2 + cap.length + 1)
              else none
            | [] => none
        else none
      | _ => none
  else none

/-- `re.findall` scanning loop: try the pattern at each position, restart
after the match on success, one character further on failure.  `fuel` is
an upper bound on the number of steps (the text length suffices because
every step consumes at least one character). -/
def scanAll (tryM : List Char → Option (RMatch × Nat)) :
    Nat → List Char → List RMatch
  | 0, _ => []
  | _ + 1, [] => []
  | n + 1, c :: cs =>
    match tryM (c :: cs) with
    | some (m, L) => m :: scanAll tryM n ((c :: cs).drop (max L 1))
    | none => scanAll tryM n cs

/-- `re.findall(pattern, raw)` for one of the pattern scanners. -/
def findall (tryM : List Char → Option (RMatch × Nat)) (raw : List Char) :
    List RMatch :=
  scanAll tryM raw.length raw

/-! ### The `data` dict of `ApkFile.__init__`

`data = {name: re.findall(pattern, raw) for name, pattern in
_extraction_patterns.items()}`.  The record below has one field per key of
`_extraction_patterns`; `dictGet` models Python `data.get(key)` over those
exact keys (any other key — in particular the `'supports_screens'` key
consulted at the `supported_screens` assignment — returns `none`). -/

structure BadgingData where
  package_name : List RMatch
  version_code : List RMatch
  version_name : List RMatch
  min_sdk_version : List RMatch
  target_sdk_version : List RMatch
  install_location : List RMatch
  labels : List RMatch
  permissions : List RMatch
  libraries : List RMatch
  features : List RMatch
  launchable_activity : List RMatch
  supported_screens : List RMatch
  supports_any_density : List RMatch
  langs : List RMatch
  densities : List RMatch
  abis : List RMatch
  icons : List RMatch
  split_name : List RMatch
deriving DecidableEq

/-- Python `data.get(key)` over the keys of `_extraction_patterns`. -/
def dictGet (d : BadgingData) : String → Option (List RMatch)
  | "package_name" => some d.package_name
  | "version_code" => some d.version_code
  | "version_name" => some d.version_name
  | "min_sdk_version" => some d.min_sdk_version
  | "target_sdk_version" => some d.target_sdk_version
  | "install_location" => some d.install_location
  | "labels" => some d.labels
  | "permissions" => some d.permissions
  | "libraries" => some d.libraries
  | "features" => some d.features
  | "launchable_activity" => some d.launchable_activity
  | "supported_screens" => some d.supported_screens
  | "supports_any_density" => some d.supports_any_density
  | "langs" => some d.langs
  | "densities" => some d.densities
  | "abis" => some d.abis
  | "icons" => some d.icons
  | "split_name" => some d.split_name
  | _ => none

/-- Literal prefix of a pattern ending in an opening quote. -/
def preQ (s : String) : List Char := s.data ++ [squote]

/-- `re.findall` of every `_extraction_patterns` entry against the raw
badging text (`apkfile/__init__.py`, `_extraction_patterns`). -/
def extractData (raw : List Char) : BadgingData where
  package_name := findall (matchSimpleQuote (preQ "package: name=")) raw
  version_code := findall (matchSimpleQuote (preQ "versionCode=")) raw
  version_name := findall (matchSimpleQuote (preQ "versionName=")) raw
  min_sdk_version := findall (matchSimpleQuote (preQ "sdkVersion:")) raw
  target_sdk_version := findall (matchSimpleQuote (preQ "targetSdkVersion:")) raw
  install_location := findall (matchSimpleQuote (preQ "install-location:")) raw
  labels := findall matchLabel raw
  permissions := findall (matchSimpleQuote (preQ "uses-permission: name=")) raw
  libraries := findall (fun t =>
    match matchSimpleQuote (preQ "uses-library-not-required:") t with
    | some r => some r
    | none => matchSimpleQuote (preQ "uses-library:") t) raw
  features := findall (fun t =>
    match matchSimpleQuote (preQ "uses-feature-not-required: name=") t with
    | some r => some r
    | none => matchSimpleQuote (preQ "uses-feature: name=") t) raw
  launchable_activity := findall (matchSimpleQuote (preQ "launchable-activity: name=")) raw
  supported_screens := findall (matchClassCap (preQ "supports-screens: ") isScreensChar) raw
  supports_any_density := findall (matchSimpleQuote (preQ "supports-any-density: ")) raw
  langs := findall (matchClassCap (preQ "locales: ") isLangsChar) raw
  densities := findall (matchClassCap (preQ "densities: ") isDensChar) raw
  abis := findall (matchDotStar "native-code: ".data) raw
  icons := findall matchIcon raw
  split_name := findall (matchSimpleQuote (preQ "split=")) raw

/-! ### `ApkFile.__init__` field post-processing -/

/-- Python exception kinds raised by the modelled code. -/
inductive PyErr where
  | indexError
  | valueError
  | keyError
  | fileExists
  | fileNotFound
  | runtimeError
  | zipError
deriving DecidableEq

/-- `(xs or (None,))[0]`: head of a truthy list, else `None`. -/
def headOrNone : Option (List RMatch) → Option RMatch
  | some (m :: _) => some m
  | _ => none

/-- Truthiness of `data.get(key)`: a nonempty list. -/
def pyTruthy : Option (List RMatch) → Bool
  | some (_ :: _) => true
  | _ => false

/-- `data.get(key, default-empty)` as an iterable of matches. -/
def matchListD : Option (List RMatch) → List RMatch
  | some l => l
  | none => []

/-- `data.get('install_location') or ('auto',)[0]`: the whole match list
when truthy, otherwise the string `'auto'`. -/
def pyOrAuto (o : Option (List RMatch)) : PyVal :=
  match o with
  | some (l@(_ :: _)) => .strList (l.map RMatch.s)
  | _ => .str "auto".data

/-- `int((data.get(k) or (0,))[0]) or None` for the optional sdk fields:
an empty match list gives `None`; a present match is parsed by `int()`
(raising `ValueError` on failure) and a zero value collapses to `None`. -/
def fieldOptInt (o : Option (List RMatch)) : Except PyErr (Option Int) :=
  match o with
  | some (m :: _) =>
    match pyInt m.s with
    | some v => .ok (if v = 0 then none else some v)
    | none => .error .valueError
  | _ => .ok none

/-- `re.split(r"'\s'", s)`: split on a quote, one whitespace character and
a quote, scanning left to right.  First delimiter position, if any. -/
def findQWQ : List Char → Option Nat
  | q1 :: c :: q2 :: rest =>
    if q1 = squote && isPySpace c && q2 = squote then some 0
    else (findQWQ (c :: q2 :: rest)).map (fun n => n + 1)
  | _ => none

/-- `re.split(r"'\s'", s)` (fueled by the list length). -/
def splitQWQgo : Nat → List Char → List (List Char)
  | 0, l => [l]
  | n + 1, l =>
    match findQWQ l with
    | none => [l]
    | some i => l.take i :: splitQWQgo n (l.drop (i + 3))

/-- `re.split(r"'\s'", s)`. -/
def splitQWQ (l : List Char) : List (List Char) := splitQWQgo l.length l

/-- `re.match(r'^[\dA-Za-z\-]+$', s)`: a nonempty run of the class,
optionally followed by one final newline (matched by `$`). -/
def pyLangShape (l : List Char) : Bool :=
  let core := if l.getLast? = some nlChar then l.dropLast else l
  !core.isEmpty && core.all isLangTagChar

/-- The `labels`/`icons` dict comprehensions with last-writer-wins. -/
def pairsToDict (l : List RMatch) : List (List Char × List Char) :=
  pyDictOf (l.map RMatch.pair)

/-- The icons dict loop: `int(size)` can raise `ValueError`; later pairs
win on duplicate keys (insertion in place). -/
def iconsGo (acc : List (Int × List Char)) :
    List RMatch → Except PyErr (List (Int × List Char))
  | [] => .ok acc
  | m :: rest =>
    match pyInt m.pair.1 with
    | some k =>
      iconsGo
        (if acc.any (fun p => p.1 = k) then
          acc.map (fun p => if p.1 = k then (k, m.pair.2) else p)
        else acc ++ [(k, m.pair.2)]) rest
    | none => .error .valueError

/-- The icons dict `{int(size): icon for size, icon in data.get('icons', {})}`. -/
def iconsDict (l : List RMatch) : Except PyErr (List (Int × List Char)) :=
  iconsGo [] l

/-! ### The `ApkFile` record and `ApkFile.__init__` -/

/-- The attributes `ApkFile.__init__` assigns from the badging text. -/
structure Apk where
  package_name : List Char
  version_code : Int
  version_name : Option (List Char)
  min_sdk_version : Option Int
  target_sdk_version : Option Int
  install_location : InstallLocation
  labels : List (List Char × List Char)
  permissions : List (List Char)
  libraries : List (List Char)
  features : List (List Char)
  launchable_activity : Option (List Char)
  supported_screens : List (List Char)
  supports_any_density : Bool
  langs : List (List Char)
  densities : List (List Char)
  split_name : Option (List Char)
  abis : List Abi
  icons : List (Int × List Char)
deriving DecidableEq

/-- The `supported_screens` assignment: the source guards on
`data.get('supports_screens')`, a key that is not among the
`_extraction_patterns` keys (which use `supported_screens`), so the guard
is never truthy and the `else ()` branch is always taken. -/
def fieldScreens (d : BadgingData) : List (List Char) :=
  match dictGet d "supports_screens" with
  | some (m :: _) => splitQWQ m.s
  | _ => []

/-- `tuple(lang.strip() for lang in re.split(r"'\s'", data['langs'][0]) if
re.match(r'^[\dA-Za-z\-]+$', lang)) if data.get('langs') else ()`. -/
def fieldLangs (d : BadgingData) : List (List Char) :=
  match dictGet d "langs" with
  | some (m :: _) => ((splitQWQ m.s).filter pyLangShape).map pyStrip
  | _ => []

/-- `tuple(str(x) for x in re.split(r"'\s'", data['densities'][0])) if
data.get('densities') else ()`. -/
def fieldDensities (d : BadgingData) : List (List Char) :=
  match dictGet d "densities" with
  | some (m :: _) => splitQWQ m.s
  | _ => []

/-- `tuple(Abi(abi.replace("'", "")) for abi in re.split(r"'\s'",
data['abis'][0])) if data.get('abis') else ()`. -/
def fieldAbis (d : BadgingData) : List Abi :=
  match dictGet d "abis" with
  | some (m :: _) =>
    (splitQWQ m.s).map (fun a => Abi_call (a.filter (fun c => c ≠ squote)))
  | _ => []

/-- `(data.get('supports_any_density') or (None,))[0] == 'true'`. -/
def fieldAnyDensity (d : BadgingData) : Bool :=
  match headOrNone (dictGet d "supports_any_density") with
  | some m => m.s = "true".data
  | none => false

/-- The field-extraction part of `ApkFile.__init__`
(`apkfile/__init__.py` lines 583-603), given the raw aapt badging output.
Failure cases, in source order: an `IndexError` when the required
`package_name`/`version_code` match lists are empty; a `ValueError` when
`int()` fails on the version code, an sdk field or an icon size. -/
def ApkFile_init (raw : List Char) : Except PyErr Apk :=
  let data := extractData raw
  match data.package_name with
  | [] => .error .indexError
  | pkgM :: _ =>
    match data.version_code with
    | [] => .error .indexError
    | vcM :: _ =>
      match pyInt vcM.s with
      | none => .error .valueError
      | some vc =>
        match fieldOptInt (dictGet data "min_sdk_version") with
        | .error e => .error e
        | .ok minSdk =>
          match fieldOptInt (dictGet data "target_sdk_version") with
          | .error e => .error e
          | .ok targetSdk =>
            match iconsDict (matchListD (dictGet data "icons")) with
            | .error e => .error e
            | .ok icons =>
              .ok
                { package_name := pkgM.s
                  version_code := vc
                  version_name := (headOrNone (dictGet data "version_name")).map RMatch.s
                  min_sdk_version := minSdk
                  target_sdk_version := targetSdk
                  install_location := InstallLocation_call (pyOrAuto (dictGet data "install_location"))
                  labels := pairsToDict (matchListD (dictGet data "labels"))
                  permissions := (matchListD (dictGet data "permissions")).map RMatch.s
                  libraries := (matchListD (dictGet data "libraries")).map RMatch.s
                  features := (matchListD (dictGet data "features")).map RMatch.s
                  launchable_activity := (headOrNone (dictGet data "launchable_activity")).map RMatch.s
                  supported_screens := fieldScreens data
                  supports_any_density := fieldAnyDensity data
                  langs := fieldLangs data
                  densities := fieldDensities data
                  split_name := (headOrNone (dictGet data "split_name")).map RMatch.s
                  abis := fieldAbis data
                  icons := icons }

/-- `ApkFile.is_split`: the split-name field was present. -/
def Apk.is_split (a : Apk) : Bool := a.split_name.isSome

/-- `ApkFile.split_type` (`apkfile/__init__.py` lines 610-622). -/
def Apk.split_type (a : Apk) : Option SplitType :=
  if a.is_split = false then none
  else
    let seg := lastDotSeg (a.split_name.getD [])
    if endsWithL "dpi".data seg then some .DPI
    else if a.langs.any (fun lang => hasSubstr seg lang) then some .LANGUAGE
    else if a.abis.length = 1 then some .ABI
    else some .OTHER

/-- `ApkFile.is_universal` of the `apkfile/apk.py` revision:
`len(self.abis) == 0 or all(abi in self.abis for abi in Abi.all())`. -/
def is_universal (abis : List Abi) : Bool :=
  decide (abis.length = 0) || Abi.all.all (fun abi => abis.contains abi)

/-! ### `install_apks`: density-split selection (C7) -/

/-- The `_dpis` bucket table of `apkfile/__init__.py`. -/
def dpisGet (s : List Char) : Option Int :=
  if s = "ldpi".data then some 120
  else if s = "mdpi".data then some 160
  else if s = "hdpi".data then some 240
  else if s = "xhdpi".data then some 320
  else if s = "xxhdpi".data then some 480
  else if s = "xxxhdpi".data then some 640
  else none

/-- `_dpis.get(dpi_split.split_name.split('.')[-1])`. -/
def bucketOf (a : Apk) : Option Int :=
  dpisGet (lastDotSeg (a.split_name.getD []))

/-- The `for dpi_split in dpi_splits` loop of `install_apks` (lines
197-203): the state carries `closest_dpi` and the chosen `split`, updated
when a known bucket strictly improves the distance to the device
density. -/
def dpiLoop (dev : Int) : List Apk → Option (Int × Apk) → Option (Int × Apk)
  | [], st => st
  | sp :: rest, st =>
    match bucketOf sp with
    | none => dpiLoop dev rest st
    | some d =>
      match st with
      | none => dpiLoop dev rest (some (d, sp))
      | some (c, cur) =>
        if |d - dev| < |c - dev| then dpiLoop dev rest (some (d, sp))
        else dpiLoop dev rest (some (c, cur))

/-- The density split added by `install_apks` (`none` when `closest_dpi`
stays `None` and no split is added). -/
def selectDpiSplit (dpi_splits : List Apk) (dev : Int) : Option Apk :=
  (dpiLoop dev dpi_splits none).map (fun p => p.2)

/-! ### `install_apks`: the "others" filter and the `device_abis`
generator (C8) -/

/-- Pull items from the `device_abis` generator until one is compatible
with `a`; returns the verdict and the generator's remaining items. -/
def pullCompat (a : Abi) : List Abi → Bool × List Abi
  | [] => (false, [])
  | d :: rest => if d.is_compatible_with a then (true, rest) else pullCompat a rest

/-- `any(device_abi.is_compatible_with(apk_abi) for apk_abi in apk.abis
for device_abi in device_abis)` where `device_abis` is a single-use
generator: the first apk ABI iterates the generator from its current
position; once the generator is exhausted, the remaining apk ABIs see an
empty inner loop. -/
def anyCompatGen : List Abi → List Abi → Bool × List Abi
  | [], g => (false, g)
  | a :: rest, g =>
    match pullCompat a g with
    | (true, g1) => (true, g1)
    | (false, _) => anyCompatGen rest []

/-- The `for apk in others` filter of `install_apks` (lines 163-167),
threading the `device_abis` generator state; returns the selected apks in
order and the generator's remaining items.  The `and`/`or`
short-circuiting of the source is preserved: the ABI check only consumes
the generator when the sdk check passed and the apk declares ABIs. -/
def selectOthers (others : List Apk) (device_sdk : Int) (g : List Abi) :
    List Apk × List Abi :=
  match others with
  | [] => ([], g)
  | apk :: rest =>
    let sdkOk := apk.min_sdk_version.isNone ||
      decide (apk.min_sdk_version.getD 0 ≤ device_sdk)
    if sdkOk then
      if apk.abis.isEmpty then
        let (sel, g1) := selectOthers rest device_sdk g
        (apk :: sel, g1)
      else
        match anyCompatGen apk.abis g with
        | (true, g1) =>
          let (sel, g2) := selectOthers rest device_sdk g1
          (apk :: sel, g2)
        | (false, g1) => selectOthers rest device_sdk g1
    else selectOthers rest device_sdk g

/-- The selection the specification describes: every apk judged
independently against the full device ABI list. -/
def selectOthersSpec (others : List Apk) (device_sdk : Int)
    (device_abis : List Abi) : List Apk :=
  others.filter (fun apk =>
    (apk.min_sdk_version.isNone ||
      decide (apk.min_sdk_version.getD 0 ≤ device_sdk)) &&
    (apk.abis.isEmpty ||
      apk.abis.any (fun a => device_abis.any (fun d => d.is_compatible_with a))))

/-! ### `_BaseZipApkFile` extraction (C3, C5) -/

/-- The environment a bundle extraction runs against: the archive member
list, the resolved base member path, whether `extractall` succeeds, the
outcome of `ApkFile(...)` construction per extracted member (the external
aapt invocation), and the `skip_broken_splits` flag. -/
structure ZipEnv where
  namelist : List (List Char)
  base_path : List Char
  extract_ok : Bool
  parse : List Char → Except PyErr Apk
  skip_broken : Bool

/-- The attributes of a `_BaseZipApkFile` instance touched by `_extract`;
`none` models a slot not yet assigned. -/
structure ZipState where
  extracted : Bool
  base : Option Apk
  splits : Option (List Apk)
  package_name : Option (List Char)
  version_code : Option Int
  version_name : Option (Option (List Char))
  min_sdk_version : Option (Option Int)
  target_sdk_version : Option (Option Int)
  supported_screens : Option (List (List Char))
  launchable_activity : Option (Option (List Char))
  densities : Option (List (List Char))
  supports_any_density : Option Bool
  permissions : Option (Finset (List Char))
  features : Option (Finset (List Char))
  libraries : Option (Finset (List Char))
  langs : Option (Finset (List Char))
  abis : Option (Finset Abi)
  labels : Option (List (List Char × List Char))
deriving DecidableEq

/-- The state of a freshly constructed `_BaseZipApkFile`
(`apkfile/__init__.py` revision): nothing assigned, not extracted. -/
def ZipState.init : ZipState :=
  { extracted := false, base := none, splits := none, package_name := none,
    version_code := none, version_name := none, min_sdk_version := none,
    target_sdk_version := none, supported_screens := none,
    launchable_activity := none, densities := none,
    supports_any_density := none, permissions := none, features := none,
    libraries := none, langs := none, abis := none, labels := none }

/-- The split-parsing loop: broken splits (`FileExistsError`) are skipped
when `skip_broken_splits` is set, otherwise the error propagates. -/
def parseSplits (env : ZipEnv) : List (List Char) → Except PyErr (List Apk)
  | [] => .ok []
  | p :: rest =>
    match env.parse p with
    | .ok a => (parseSplits env rest).map (fun l => a :: l)
    | .error e =>
      if env.skip_broken && decide (e = .fileExists) then parseSplits env rest
      else .error e

/-- `set(x for split in splits for x in getattr(split, attr)) |
set(getattr(base, attr))` as a finite set. -/
def unionField (f : Apk → List (List Char)) (base : Apk) (splits : List Apk) :
    Finset (List Char) :=
  (splits.flatMap f).toFinset ∪ (f base).toFinset

/-- The same union for the `abis` attribute. -/
def unionAbis (base : Apk) (splits : List Apk) : Finset Abi :=
  (splits.flatMap (fun s => s.abis)).toFinset ∪ base.abis.toFinset

/-- The merged labels dict: split dicts in order, then the base dict,
folded into one Python dict (last writer wins). -/
def mergedLabels (base : Apk) (splits : List Apk) :
    List (List Char × List Char) :=
  pyDictOf (splits.flatMap (fun s => s.labels) ++ base.labels)

/-- `_BaseZipApkFile._extract` of `apkfile/__init__.py` (lines 730-759) as
a state transformer; the second component is the exception raised, if any.
Mutations already performed before an exception stay in the state, exactly
as for the Python object. -/
def zipExtract (env : ZipEnv) (st : ZipState) : ZipState × Option PyErr :=
  if st.extracted then (st, none)
  else
    let splits_paths := env.namelist.filter
      (fun x => endsWithL ".apk".data x && x ≠ env.base_path)
    if env.extract_ok = false then (st, some .zipError)
    else
      let st1 := { st with extracted := true }
      match env.parse env.base_path with
      | .error e => (st1, some e)
      | .ok base =>
        let st2 := { st1 with base := some base }
        match parseSplits env splits_paths with
        | .error e => (st2, some e)
        | .ok splits =>
          ({ st2 with
              splits := some splits
              package_name := some base.package_name
              version_code := some base.version_code
              version_name := some base.version_name
              min_sdk_version := some base.min_sdk_version
              target_sdk_version := some base.target_sdk_version
              supported_screens := some base.supported_screens
              launchable_activity := some base.launchable_activity
              densities := some base.densities
              supports_any_density := some base.supports_any_density
              permissions := some (unionField (fun a => a.permissions) base splits)
              features := some (unionField (fun a => a.features) base splits)
              libraries := some (unionField (fun a => a.libraries) base splits)
              langs := some (unionField (fun a => a.langs) base splits)
              abis := some (unionAbis base splits)
              labels := some (mergedLabels base splits) }, none)

/-- The state of a freshly constructed `_BaseZipApkFile` of the
`apkfile/_zip_apk.py` revision, whose `__init__` assigns
`self.abis = tuple()`. -/
def ZipState.initOld : ZipState := { ZipState.init with abis := some ∅ }

/-- `_BaseZipApkFile._extract` of the `apkfile/_zip_apk.py` revision
(lines 53-86): identical aggregation except that the `abis` attribute is
never reassigned. -/
def zipExtractOld (env : ZipEnv) (st : ZipState) : ZipState × Option PyErr :=
  if st.extracted then (st, none)
  else
    let splits_paths := env.namelist.filter
      (fun x => endsWithL ".apk".data x && x ≠ env.base_path)
    if env.extract_ok = false then (st, some .zipError)
    else
      let st1 := { st with extracted := true }
      match env.parse env.base_path with
      | .error e => (st1, some e)
      | .ok base =>
        let st2 := { st1 with base := some base }
        match parseSplits env splits_paths with
        | .error e => (st2, some e)
        | .ok splits =>
          ({ st2 with
              splits := some splits
              package_name := some base.package_name
              version_code := some base.version_code
              version_name := some base.version_name
              min_sdk_version := some base.min_sdk_version
              target_sdk_version := some base.target_sdk_version
              supported_screens := some base.supported_screens
              launchable_activity := some base.launchable_activity
              densities := some base.densities
              supports_any_density := some base.supports_any_density
              permissions := some (unionField (fun a => a.permissions) base splits)
              features := some (unionField (fun a => a.features) base splits)
              libraries := some (unionField (fun a => a.libraries) base splits)
              langs := some (unionField (fun a => a.langs) base splits)
              labels := some (mergedLabels base splits) }, none)

/-- The split-category classification as the specification words it:
computed from the final dot-segment of the split name, density suffix
first, then a locale-substring match, then a single declared ABI, then
`OTHER`; `none` for a non-split descriptor. -/
def splitCategorySpec (a : Apk) : Option SplitType :=
  match a.split_name with
  | none => none
  | some s =>
    let seg := lastDotSeg s
    if endsWithL "dpi".data seg then some .DPI
    else if a.langs.any (fun lang => hasSubstr seg lang) then some .LANGUAGE
    else if a.abis.length = 1 then some .ABI
    else some .OTHER

/-- A required integer field is present and parses. -/
def okReqIntField (l : List RMatch) : Bool :=
  match l with
  | m :: _ => (pyInt m.s).isSome
  | [] => false

/-- An optional integer field is absent, or present and parsing. -/
def okOptIntField (l : List RMatch) : Bool :=
  match l with
  | m :: _ => (pyInt m.s).isSome
  | [] => true

/-- Well-formedness of a badging text: the package-name and version-code
patterns match (with a numeric version code), and the optional sdk fields,
when present, carry numeric captures. -/
def wellFormed (raw : List Char) : Bool :=
  !(extractData raw).package_name.isEmpty &&
  okReqIntField (extractData raw).version_code &&
  okOptIntField (extractData raw).min_sdk_version &&
  okOptIntField (extractData raw).target_sdk_version

/-- The first captured string of a match list (empty when there is no
match). -/
def cap0 (l : List RMatch) : List Char := (l.headD (.one [])).s

/-! ### Concrete inputs used by the claim witnesses and counterexamples -/

/-- A one-character list holding the quote. -/
def qm : List Char := [squote]

/-- A descriptor with the given split name, locales, ABIs and min-sdk;
all other fields at their defaults. -/
def mkApk (pkg : List Char) (sn : Option (List Char))
    (langs : List (List Char)) (abis : List Abi) (minSdk : Option Int) : Apk :=
  { package_name := pkg, version_code := 1, version_name := none,
    min_sdk_version := minSdk, target_sdk_version := none,
    install_location := .AUTO, labels := [], permissions := [],
    libraries := [], features := [], launchable_activity := none,
    supported_screens := [], supports_any_density := false, langs := langs,
    densities := [], split_name := sn, abis := abis, icons := [] }

/-- A density split whose bucket (`tvdpi`) is missing from `_dpis`. -/
def tvdpiSplit : Apk := mkApk "com.ex.tv".data (some "config.tvdpi".data) [] [] none

/-- The `res.ldpi` density split of the specification scenario. -/
def ldpiSplit : Apk := mkApk "com.ex.l".data (some "res.ldpi".data) [] [] none

/-- The `res.xxhdpi` density split of the specification scenario. -/
def xxhdpiSplit : Apk := mkApk "com.ex.xxh".data (some "res.xxhdpi".data) [] [] none

/-- A base package declaring no ABIs. -/
def baseApk : Apk := mkApk "com.ex".data none [] [] none

/-- An apk declaring only `X86_64`, incompatible with an `ARM64` device. -/
def otherX64 : Apk := mkApk "com.ex.a".data none [] [.X86_64] none

/-- An apk declaring only `ARM64`, compatible with an `ARM64` device. -/
def otherA64 : Apk := mkApk "com.ex.b".data none [] [.ARM64] none

/-- Badging text with only the two required fields. -/
def rawMin : List Char :=
  "package: name=".data ++ qm ++ "com.ex".data ++ qm ++
  " versionCode=".data ++ qm ++ "7".data ++ qm ++ [nlChar]

/-- Badging text with the required fields and an
`install-location:'internalOnly'` line. -/
def rawLoc : List Char :=
  rawMin ++ "install-location:".data ++ qm ++ "internalOnly".data ++ qm ++ [nlChar]

/-- The capture of the supports-screens line of `rawScreens`. -/
def capScreens : List Char :=
  "small".data ++ qm ++ " ".data ++ qm ++ "normal".data

/-- Badging text with the required fields and a
`supports-screens: 'small' 'normal'` line. -/
def rawScreens : List Char :=
  rawMin ++ "supports-screens: ".data ++ qm ++ capScreens ++ qm ++ [nlChar]

/-- A dummy descriptor (with a non-`AUTO` install location, so reading the
parse result through `getD` cannot vacuously be `AUTO`). -/
def dummyApk : Apk :=
  { mkApk "dummy".data none [] [] none with install_location := .INTERNAL_ONLY }

/-- A base apk declaring `ARM`, for the `_zip_apk.py` abis counterexample. -/
def apkBaseArm : Apk := mkApk "com.ex".data none [] [.ARM] none

/-- Bundle environment for the `_zip_apk.py` counterexample: one member,
the base, which parses with `abis = [ARM]`. -/
def envOldC : ZipEnv :=
  { namelist := ["base.apk".data], base_path := "base.apk".data,
    extract_ok := true,
    parse := fun p => if p = "base.apk".data then .ok apkBaseArm
      else .error .fileNotFound,
    skip_broken := false }

/-- Base descriptor of the aggregation witness bundle. -/
def apkBaseW : Apk :=
  { mkApk "com.ex".data none ["en".data] [.ARM64] none with
      labels := [("en".data, "Base".data)],
      permissions := ["p1".data] }

/-- Split descriptor of the aggregation witness bundle. -/
def splitW : Apk :=
  { mkApk "com.ex".data (some "config.fr".data) ["fr".data] [.ARM7] none with
      labels := [("en".data, "S1".data), ("fr".data, "S2".data)],
      permissions := ["p2".data, "p1".data] }

/-- Bundle environment of the aggregation witness: a base, one split and a
non-apk member. -/
def envW : ZipEnv :=
  { namelist := ["base.apk".data, "split1.apk".data, "icon.png".data],
    base_path := "base.apk".data,
    extract_ok := true,
    parse := fun p =>
      if p = "base.apk".data then .ok apkBaseW
      else if p = "split1.apk".data then .ok splitW
      else .error .fileExists,
    skip_broken := false }

/-! ### Theorems for the claims -/

/-- Claim C1: `is_compatible_with` is reflexive and coincides exactly with
the stated lattice: `X86_64 ⊇ {X86, ARM64, ARM7, ARM}`,
`X86 ⊇ {ARM64, ARM7, ARM}`, `ARM64 ⊇ {ARM7, ARM}`, `ARM7 ⊇ {ARM}`,
while `ARM` and `UNKNOWN` are compatible only with themselves; in
particular the relation is asymmetric: `ARM7` is not compatible with
`X86_64` although `X86_64` is compatible with `ARM7`. -/
theorem abi_compatibility_lattice :
    (∀ a : Abi, a.is_compatible_with a = true) ∧
    (∀ a b : Abi, a.is_compatible_with b = true ↔ (a = b ∨ b ∈ latticeSpec a)) ∧
    Abi.is_compatible_with .ARM7 .X86_64 = false ∧
    Abi.is_compatible_with .X86_64 .ARM7 = true := by
  refine ⟨?_, ?_, rfl, rfl⟩
  · intro a; cases a <;> rfl
  · intro a b; cases a <;> cases b <;> simp [Abi.is_compatible_with, latticeSpec, compatibilityMap]

/-! ### Claim C9: `is_universal` -/

/-- Claim C9: `is_universal` is true exactly when the `abis` collection is
empty or contains every known (non-`UNKNOWN`) ABI — the five members
`ARM`, `ARM7`, `ARM64`, `X86`, `X86_64` returned by `Abi.all()`. -/
theorem is_universal_iff (abis : List Abi) :
    is_universal abis = true ↔
      (abis = [] ∨ (Abi.ARM ∈ abis ∧ Abi.ARM7 ∈ abis ∧ Abi.ARM64 ∈ abis ∧
        Abi.X86 ∈ abis ∧ Abi.X86_64 ∈ abis)) := by
  simp [is_universal, Abi.all, Abi.members, List.length_eq_zero,
    List.elem_iff, and_assoc]

/-! ### Claim C4: split classification -/

/-- Claim C4: `ApkFile.split_type` classifies exactly as described: for a
split descriptor the final dot-segment decides, in priority order —
density suffix `dpi`, then occurrence as a substring of a declared locale,
then exactly one declared ABI, else `OTHER`; for a non-split descriptor
the result is `none`. -/
theorem split_type_classification (a : Apk) :
    a.split_type = splitCategorySpec a := by
  cases h : a.split_name <;>
    simp [Apk.split_type, splitCategorySpec, Apk.is_split, h]

/-! ### Claim C5: extraction is idempotent and at most once -/

/-- `_extract` returns immediately on an already-extracted state. -/
lemma zipExtract_of_extracted (env : ZipEnv) (st : ZipState)
    (h : st.extracted = true) : zipExtract env st = (st, none) := by
  simp [zipExtract, h]

/-- `_extract` either leaves the state untouched or marks it extracted. -/
lemma zipExtract_cases (env : ZipEnv) (st : ZipState) :
    (zipExtract env st).1 = st ∨ (zipExtract env st).1.extracted = true := by
  unfold zipExtract
  split
  · left; rfl
  · split
    · left; rfl
    · split
      · right; rfl
      · dsimp only
        split
        · right; rfl
        · right; rfl

/-- Claim C5: `_BaseZipApkFile._extract` runs at most once per instance:
a second call is a no-op on the state (base, splits and every aggregated
field included), a call on a state whose `extracted` flag is already set
returns the state unchanged and raises nothing, and the flag is one-way
(it is never reset by a call). -/
theorem zip_extract_idempotent (env : ZipEnv) (st : ZipState) :
    (zipExtract env (zipExtract env st).1).1 = (zipExtract env st).1 ∧
    zipExtract env { st with extracted := true } =
      ({ st with extracted := true }, none) ∧
    ((zipExtract env st).1.extracted = st.extracted ∨
      (zipExtract env st).1.extracted = true) := by
  refine ⟨?_, zipExtract_of_extracted env _ rfl, ?_⟩
  · rcases zipExtract_cases env st with h | h
    · rw [h]; exact h
    · rw [zipExtract_of_extracted env _ h]
  · rcases zipExtract_cases env st with h | h
    · left; rw [h]
    · right; exact h

/-! ### Claim C10: `install_location` is always `AUTO` -/

/-- Whatever `data.get('install_location')` holds, the value handed to the
`InstallLocation` constructor — the whole match list when truthy, the
string `'auto'` otherwise — coerces to `AUTO`. -/
lemma installLocation_call_or_auto (o : Option (List RMatch)) :
    InstallLocation_call (pyOrAuto o) = .AUTO := by
  match o with
  | none => rfl
  | some [] => rfl
  | some (m :: l) => rfl

/-- Claim C10: every successfully parsed `ApkFile` has
`install_location = AUTO`, whatever install-location token the badging
text carries, because the full list of regex matches (never a member
value) is passed to the `InstallLocation` constructor and its `_missing_`
fallback maps any non-member argument to `AUTO`. -/
theorem install_location_always_auto (raw : List Char) (apk : Apk)
    (h : ApkFile_init raw = .ok apk) :
    apk.install_location = InstallLocation.AUTO := by
  revert h
  unfold ApkFile_init
  dsimp only
  repeat' split
  all_goals intro h
  all_goals first
    | exact Except.noConfusion h
    | (cases h; exact installLocation_call_or_auto _)

/-! ### Claim C2: required fields, optional defaults -/

/-- `dropWhile` is the identity when no element satisfies the predicate. -/
lemma dropWhile_eq_self {p : Char → Bool} {l : List Char}
    (h : ∀ a ∈ l, p a = false) : l.dropWhile p = l := by
  cases l with
  | nil => rfl
  | cons c cs => rw [List.dropWhile_cons_of_neg]; simp [h c (by simp)]

/-- A digit is not whitespace. -/
lemma digit_not_space {c : Char} (h : isDigit09 c = true) :
    isPySpace c = false := by
  simp only [isDigit09, Bool.and_eq_true, decide_eq_true_eq] at h
  simp only [isPySpace, Bool.or_eq_false_iff, decide_eq_false_iff_not]
  have h0 : ('0' : Char) ≤ c := h.1
  refine ⟨⟨⟨⟨⟨?_, ?_⟩, ?_⟩, ?_⟩, ?_⟩, ?_⟩ <;>
    (rintro rfl; exact absurd h0 (by decide))

/-- `pyStrip` leaves an all-digit string unchanged. -/
lemma pyStrip_digits {l : List Char} (h : ∀ c ∈ l, isDigit09 c = true) :
    pyStrip l = l := by
  unfold pyStrip
  rw [dropWhile_eq_self (fun a ha => digit_not_space (h a ha)),
    dropWhile_eq_self (fun a ha => digit_not_space (h a (List.mem_reverse.mp ha))),
    List.reverse_reverse]

/-- A nonempty all-digit string passes the `int()` digit-shape test. -/
lemma pyIntDigitsOk_of_digits {l : List Char} (hne : l ≠ [])
    (h : ∀ c ∈ l, isDigit09 c = true) : pyIntDigitsOk l = true := by
  match l with
  | c :: cs =>
    have hds : ∀ a ∈ c :: cs, isDigit09 a = true := h
    simp only [pyIntDigitsOk, Bool.and_eq_true]
    refine ⟨⟨⟨hds c (by simp), ?_⟩, ?_⟩, ?_⟩
    · exact List.all_eq_true.mpr (fun a ha => by simp [hds a ha])
    · match hg : (c :: cs).getLast? with
      | some d => exact hds d (List.mem_of_mem_getLast? hg)
      | none => simp at hg
    · have : ∀ t : List Char, (∀ a ∈ t, isDigit09 a = true) →
          hasSubstr ['_', '_'] t = false := by
        intro t
        induction t with
        | nil => intro _; rfl
        | cons x xs ih =>
          intro hx
          have hxd : isDigit09 x = true := hx x (by simp)
          have hxu : x ≠ '_' := by rintro rfl; exact absurd hxd (by decide)
          simp only [hasSubstr, listPre, Bool.or_eq_false_iff]
          refine ⟨?_, ih (fun a ha => hx a (by simp [ha]))⟩
          simp [Ne.symm hxu]
      simp [this _ hds]

/-- `pyInt` succeeds on a nonempty all-digit string. -/
lemma pyInt_of_digits {l : List Char} (hne : l ≠ [])
    (h : ∀ c ∈ l, isDigit09 c = true) : (pyInt l).isSome = true := by
  match l with
  | c :: cs =>
    have hcd : isDigit09 c = true := h c (by simp)
    have h1 : pyStrip (c :: cs) = c :: cs := pyStrip_digits h
    have hminus : c ≠ '-' := by rintro rfl; exact absurd hcd (by decide)
    have hplus : c ≠ '+' := by rintro rfl; exact absurd hcd (by decide)
    unfold pyInt
    rw [h1]
    simp only [if_neg hminus, if_neg hplus,
      if_pos (pyIntDigitsOk_of_digits (List.cons_ne_nil c cs) h)]
    rfl

/-- A successful `application-icon` match captures a nonempty digit run as
its first group. -/
lemma matchIcon_digits {t : List Char} {m : RMatch} {L : Nat}
    (h : matchIcon t = some (m, L)) :
    m.pair.1 ≠ [] ∧ ∀ c ∈ m.pair.1, isDigit09 c = true := by
  unfold matchIcon at h
  dsimp only at h
  repeat' split at h
  all_goals try exact Option.noConfusion h
  simp only [Option.some.injEq, Prod.mk.injEq] at h
  obtain ⟨hm2, _⟩ := h
  subst hm2
  refine ⟨?_, fun c hc => List.mem_takeWhile_imp hc⟩
  simp only [RMatch.pair]
  simp_all [List.isEmpty_iff]

/-- Every match the `application-icon` scanner produces has a numeric
first group, so `int(size)` never raises. -/
lemma scanAll_icon_digits :
    ∀ (fuel : Nat) (t : List Char), ∀ m ∈ scanAll matchIcon fuel t,
      (pyInt m.pair.1).isSome = true := by
  intro fuel
  induction fuel with
  | zero => intro t m hm; simp [scanAll] at hm
  | succ n ih =>
    intro t m hm
    match t with
    | [] => simp [scanAll] at hm
    | c :: cs =>
      rw [scanAll] at hm
      match hmt : matchIcon (c :: cs) with
      | some (m0, L) =>
        rw [hmt] at hm
        rcases List.mem_cons.mp hm with rfl | hrest
        · obtain ⟨hne, hdig⟩ := matchIcon_digits hmt
          exact pyInt_of_digits hne hdig
        · exact ih _ _ hrest
      | none =>
        rw [hmt] at hm
        exact ih _ _ hm

/-- `iconsGo` succeeds when every size parses as an integer. -/
lemma iconsGo_ok :
    ∀ (l : List RMatch), (∀ m ∈ l, (pyInt m.pair.1).isSome = true) →
      ∀ acc : List (Int × List Char), ∃ d, iconsGo acc l = .ok d := by
  intro l
  induction l with
  | nil => intro _ acc; exact ⟨acc, rfl⟩
  | cons m ms ih =>
    intro h acc
    have hm := h m (by simp)
    match hp : pyInt m.pair.1 with
    | some k =>
      obtain ⟨d, hd⟩ := ih (fun x hx => h x (by simp [hx]))
        (if acc.any (fun p => p.1 = k) then
          acc.map (fun p => if p.1 = k then (k, m.pair.2) else p)
        else acc ++ [(k, m.pair.2)])
      exact ⟨d, by simpa [iconsGo, hp] using hd⟩
    | none => simp [hp] at hm

/-- `iconsDict` succeeds when every size parses as an integer. -/
lemma iconsDict_ok (l : List RMatch)
    (h : ∀ m ∈ l, (pyInt m.pair.1).isSome = true) :
    ∃ d, iconsDict l = .ok d := iconsGo_ok l h []

lemma dictGet_version_name (d : BadgingData) :
    dictGet d "version_name" = some d.version_name := rfl

lemma dictGet_min_sdk (d : BadgingData) :
    dictGet d "min_sdk_version" = some d.min_sdk_version := rfl

lemma dictGet_target_sdk (d : BadgingData) :
    dictGet d "target_sdk_version" = some d.target_sdk_version := rfl

lemma dictGet_install_location (d : BadgingData) :
    dictGet d "install_location" = some d.install_location := rfl

lemma dictGet_labels (d : BadgingData) : dictGet d "labels" = some d.labels := rfl

lemma dictGet_permissions (d : BadgingData) :
    dictGet d "permissions" = some d.permissions := rfl

lemma dictGet_libraries (d : BadgingData) :
    dictGet d "libraries" = some d.libraries := rfl

lemma dictGet_features (d : BadgingData) :
    dictGet d "features" = some d.features := rfl

lemma dictGet_launchable (d : BadgingData) :
    dictGet d "launchable_activity" = some d.launchable_activity := rfl

lemma dictGet_screens_key (d : BadgingData) :
    dictGet d "supports_screens" = none := rfl

lemma dictGet_any_density (d : BadgingData) :
    dictGet d "supports_any_density" = some d.supports_any_density := rfl

lemma dictGet_langs (d : BadgingData) : dictGet d "langs" = some d.langs := rfl

lemma dictGet_densities (d : BadgingData) :
    dictGet d "densities" = some d.densities := rfl

lemma dictGet_abis (d : BadgingData) : dictGet d "abis" = some d.abis := rfl

lemma dictGet_icons (d : BadgingData) : dictGet d "icons" = some d.icons := rfl

lemma dictGet_split_name (d : BadgingData) :
    dictGet d "split_name" = some d.split_name := rfl

/-- `fieldOptInt` succeeds on a well-formed optional integer field and
defaults to `None` on absence. -/
lemma fieldOptInt_ok (l : List RMatch) (h : okOptIntField l = true) :
    ∃ v, fieldOptInt (some l) = .ok v ∧ (l = [] → v = none) := by
  match l with
  | [] => exact ⟨none, rfl, fun _ => rfl⟩
  | m :: t =>
    simp only [okReqIntField, okOptIntField] at h
    obtain ⟨k, hk⟩ := Option.isSome_iff_exists.mp h
    exact ⟨if k = 0 then none else some k, by simp [fieldOptInt, hk],
      fun hc => absurd hc (by simp)⟩

/-- Claim C2: on a well-formed badging text whose package-name and
version-code patterns match, `ApkFile` construction succeeds with exactly
the captured package name and the integer value of the captured version
code; every optional field whose pattern produced no match gets its
documented default (`None`, the empty collection, `AUTO` or `False`); and
when the package-name or version-code field cannot be located the
construction raises. -/
theorem parse_required_and_defaults (raw : List Char) :
    (wellFormed raw = true →
      ∃ apk, ApkFile_init raw = .ok apk ∧
        apk.package_name = cap0 (extractData raw).package_name ∧
        pyInt (cap0 (extractData raw).version_code) = some apk.version_code ∧
        ((extractData raw).version_name = [] → apk.version_name = none) ∧
        ((extractData raw).min_sdk_version = [] → apk.min_sdk_version = none) ∧
        ((extractData raw).target_sdk_version = [] → apk.target_sdk_version = none) ∧
        ((extractData raw).install_location = [] →
          apk.install_location = .AUTO) ∧
        ((extractData raw).labels = [] → apk.labels = []) ∧
        ((extractData raw).permissions = [] → apk.permissions = []) ∧
        ((extractData raw).libraries = [] → apk.libraries = []) ∧
        ((extractData raw).features = [] → apk.features = []) ∧
        ((extractData raw).launchable_activity = [] →
          apk.launchable_activity = none) ∧
        ((extractData raw).supported_screens = [] →
          apk.supported_screens = []) ∧
        ((extractData raw).supports_any_density = [] →
          apk.supports_any_density = false) ∧
        ((extractData raw).langs = [] → apk.langs = []) ∧
        ((extractData raw).densities = [] → apk.densities = []) ∧
        ((extractData raw).split_name = [] → apk.split_name = none) ∧
        ((extractData raw).abis = [] → apk.abis = []) ∧
        ((extractData raw).icons = [] → apk.icons = [])) ∧
    ((extractData raw).package_name = [] ∨ (extractData raw).version_code = [] →
      ∃ e, ApkFile_init raw = .error e) := by
  constructor
  · intro hwf
    simp only [wellFormed, Bool.and_eq_true] at hwf
    obtain ⟨⟨⟨hpk0, hvc0⟩, hms0⟩, hts0⟩ := hwf
    match hpk : (extractData raw).package_name with
    | [] => rw [hpk] at hpk0; simp at hpk0
    | pkgM :: t1 =>
      match hvc : (extractData raw).version_code with
      | [] => rw [hvc] at hvc0; simp [okReqIntField] at hvc0
      | vcM :: t2 =>
        rw [hvc] at hvc0
        simp only [okReqIntField] at hvc0
        obtain ⟨vc, hvcs⟩ := Option.isSome_iff_exists.mp hvc0
        obtain ⟨minSdk, hmin, hminN⟩ := fieldOptInt_ok _ hms0
        obtain ⟨tgtSdk, htgt, htgtN⟩ := fieldOptInt_ok _ hts0
        obtain ⟨icons, hic⟩ := iconsDict_ok (extractData raw).icons
          (fun m hm => scanAll_icon_digits _ _ m hm)
        have hinit : ApkFile_init raw = .ok
            { package_name := pkgM.s
              version_code := vc
              version_name := (headOrNone (some (extractData raw).version_name)).map RMatch.s
              min_sdk_version := minSdk
              target_sdk_version := tgtSdk
              install_location := InstallLocation_call (pyOrAuto (some (extractData raw).install_location))
              labels := pairsToDict (extractData raw).labels
              permissions := (extractData raw).permissions.map RMatch.s
              libraries := (extractData raw).libraries.map RMatch.s
              features := (extractData raw).features.map RMatch.s
              launchable_activity := (headOrNone (some (extractData raw).launchable_activity)).map RMatch.s
              supported_screens := []
              supports_any_density := fieldAnyDensity (extractData raw)
              langs := fieldLangs (extractData raw)
              densities := fieldDensities (extractData raw)
              split_name := (headOrNone (some (extractData raw).split_name)).map RMatch.s
              abis := fieldAbis (extractData raw)
              icons := icons } := by
          unfold ApkFile_init
          dsimp only
          rw [hpk, hvc]
          dsimp only
          rw [hvcs, dictGet_min_sdk, hmin, dictGet_target_sdk, htgt,
            dictGet_icons]
          dsimp only [matchListD]
          rw [hic]
          simp only [matchListD, dictGet_version_name,
            dictGet_install_location, dictGet_labels, dictGet_permissions,
            dictGet_libraries, dictGet_features, dictGet_launchable,
            dictGet_split_name, fieldScreens, dictGet_screens_key,
            pairsToDict]
        refine ⟨_, hinit, ?_, ?_, ?_, ?_, ?_, ?_, ?_, ?_, ?_, ?_, ?_, ?_,
          ?_, ?_, ?_, ?_, ?_, ?_⟩
        · simp [cap0, hpk]
        · simp [cap0, hvc, hvcs]
        · intro hx; simp [headOrNone, hx]
        · intro hx; exact hminN hx
        · intro hx; exact htgtN hx
        · intro hx; simp [pyOrAuto, hx, InstallLocation_call]
        · intro hx; simp [pairsToDict, hx, pyDictOf]
        · intro hx; simp [hx]
        · intro hx; simp [hx]
        · intro hx; simp [hx]
        · intro hx; simp [headOrNone, hx]
        · intro hx; rfl
        · intro hx; simp [fieldAnyDensity, dictGet_any_density, headOrNone, hx]
        · intro hx; simp [fieldLangs, dictGet_langs, hx]
        · intro hx; simp [fieldDensities, dictGet_densities, hx]
        · intro hx; simp [headOrNone, hx]
        · intro hx; simp [fieldAbis, dictGet_abis, hx]
        · intro hx
          rw [hx] at hic
          simp only [iconsDict, iconsGo] at hic
          cases hic
          rfl
  · intro hor
    match hpk : (extractData raw).package_name with
    | [] =>
      refine ⟨.indexError, ?_⟩
      unfold ApkFile_init
      dsimp only
      rw [hpk]
    | pkgM :: t1 =>
      match hvc : (extractData raw).version_code with
      | [] =>
        refine ⟨.indexError, ?_⟩
        unfold ApkFile_init
        dsimp only
        rw [hpk, hvc]
      | vcM :: t2 =>
        rw [hpk, hvc] at hor
        rcases hor with h | h <;> exact absurd h (by simp)

/-! ### Claim C7: density-split selection -/

/-- Characterization of the dpi loop from a seeded state: the loop returns
a split with a known bucket which either is the seed (and nothing later is
strictly closer) or appears in the list strictly closer than the seed and
every earlier known bucket, with nothing later strictly closer. -/
lemma dpiLoop_seeded (dev : Int) :
    ∀ (rest : List Apk) (c : Int) (cur : Apk), bucketOf cur = some c →
      ∃ d x, dpiLoop dev rest (some (c, cur)) = some (d, x) ∧
        bucketOf x = some d ∧
        ((x = cur ∧ d = c ∧
            ∀ sp ∈ rest, ∀ b, bucketOf sp = some b → |c - dev| ≤ |b - dev|) ∨
          (∃ r1 r2, rest = r1 ++ x :: r2 ∧ |d - dev| < |c - dev| ∧
            (∀ sp ∈ r1, ∀ b, bucketOf sp = some b → |d - dev| < |b - dev|) ∧
            (∀ sp ∈ r2, ∀ b, bucketOf sp = some b → |d - dev| ≤ |b - dev|))) := by
  intro rest
  induction rest with
  | nil =>
    intro c cur hcur
    exact ⟨c, cur, rfl, hcur, .inl ⟨rfl, rfl, by simp⟩⟩
  | cons sp0 rest ih =>
    intro c cur hcur
    cases hb : bucketOf sp0 with
    | none =>
      have hloop : dpiLoop dev (sp0 :: rest) (some (c, cur)) =
          dpiLoop dev rest (some (c, cur)) := by
        simp [dpiLoop, hb]
      obtain ⟨d, x, hl, hx, hcase⟩ := ih c cur hcur
      refine ⟨d, x, hloop ▸ hl, hx, ?_⟩
      rcases hcase with ⟨h1, h2, h3⟩ | ⟨r1, r2, hsp, hlt, h1, h2⟩
      · exact .inl ⟨h1, h2, by
          intro sp hsp b hbb
          rcases List.mem_cons.mp hsp with rfl | hm
          · rw [hb] at hbb; exact Option.noConfusion hbb
          · exact h3 sp hm b hbb⟩
      · refine .inr ⟨sp0 :: r1, r2, by rw [hsp]; rfl, hlt, ?_, h2⟩
        intro sp hsp b hbb
        rcases List.mem_cons.mp hsp with rfl | hm
        · rw [hb] at hbb; exact Option.noConfusion hbb
        · exact h1 sp hm b hbb
    | some b =>
      by_cases hcmp : |b - dev| < |c - dev|
      · have hloop : dpiLoop dev (sp0 :: rest) (some (c, cur)) =
            dpiLoop dev rest (some (b, sp0)) := by
          simp [dpiLoop, hb, hcmp]
        obtain ⟨d, x, hl, hx, hcase⟩ := ih b sp0 hb
        refine ⟨d, x, hloop ▸ hl, hx, ?_⟩
        rcases hcase with ⟨hxe, hde, h3⟩ | ⟨r1, r2, hsp, hlt, h1, h2⟩
        · subst hxe; subst hde
          refine .inr ⟨[], rest, by simp, hcmp, by simp, ?_⟩
          exact h3
        · refine .inr ⟨sp0 :: r1, r2, by rw [hsp]; rfl, lt_trans hlt hcmp, ?_, h2⟩
          intro sp hsp1 bb hbb
          rcases List.mem_cons.mp hsp1 with rfl | hm
          · rw [hb] at hbb
            cases hbb
            exact hlt
          · exact h1 sp hm bb hbb
      · have hloop : dpiLoop dev (sp0 :: rest) (some (c, cur)) =
            dpiLoop dev rest (some (c, cur)) := by
          simp [dpiLoop, hb, hcmp]
        obtain ⟨d, x, hl, hx, hcase⟩ := ih c cur hcur
        have hle : |c - dev| ≤ |b - dev| := not_lt.mp hcmp
        refine ⟨d, x, hloop ▸ hl, hx, ?_⟩
        rcases hcase with ⟨h1, h2, h3⟩ | ⟨r1, r2, hsp, hlt, h1, h2⟩
        · refine .inl ⟨h1, h2, ?_⟩
          intro sp hsp1 bb hbb
          rcases List.mem_cons.mp hsp1 with rfl | hm
          · rw [hb] at hbb; cases hbb; exact hle
          · exact h3 sp hm bb hbb
        · refine .inr ⟨sp0 :: r1, r2, by rw [hsp]; rfl, hlt, ?_, h2⟩
          intro sp hsp1 bb hbb
          rcases List.mem_cons.mp hsp1 with rfl | hm
          · rw [hb] at hbb; cases hbb; exact lt_of_lt_of_le hlt hle
          · exact h1 sp hm bb hbb

/-- The dpi loop stays empty over splits with no known bucket. -/
lemma dpiLoop_none_of_unknown (dev : Int) :
    ∀ rest : List Apk, (∀ sp ∈ rest, bucketOf sp = none) →
      dpiLoop dev rest none = none := by
  intro rest
  induction rest with
  | nil => intro _; rfl
  | cons sp0 r ih =>
    intro h
    have h0 := h sp0 (by simp)
    simp only [dpiLoop, h0]
    exact ih (fun sp hsp => h sp (by simp [hsp]))

/-- When some split has a known bucket, the loop selects the first split
attaining the minimal distance to the device density. -/
lemma selectDpi_argmin :
    ∀ (splits : List Apk) (dev : Int) (k : Apk), k ∈ splits →
      (bucketOf k).isSome = true →
      ∃ c, selectDpiSplit splits dev = some c ∧ c ∈ splits ∧
        ∃ d, bucketOf c = some d ∧
          (∀ sp ∈ splits, ∀ b, bucketOf sp = some b →
            |d - dev| ≤ |b - dev|) ∧
          ∃ l1 l2, splits = l1 ++ c :: l2 ∧
            ∀ sp ∈ l1, ∀ b, bucketOf sp = some b → |d - dev| < |b - dev| := by
  intro splits
  induction splits with
  | nil => intro dev k hk; simp at hk
  | cons sp0 rest ih =>
    intro dev k hk hks
    cases hb : bucketOf sp0 with
    | some b =>
      have hloop : selectDpiSplit (sp0 :: rest) dev =
          (dpiLoop dev rest (some (b, sp0))).map (fun p => p.2) := by
        simp [selectDpiSplit, dpiLoop, hb]
      obtain ⟨d, x, hl, hx, hcase⟩ := dpiLoop_seeded dev rest b sp0 hb
      refine ⟨x, by rw [hloop, hl]; rfl, ?_, d, hx, ?_, ?_⟩
      · rcases hcase with ⟨rfl, _, _⟩ | ⟨r1, r2, hsp, _, _, _⟩
        · exact List.mem_cons_self _ _
        · exact List.mem_cons_of_mem _ (hsp ▸ List.mem_append_right r1 (List.mem_cons_self _ _))
      · intro sp hsp bb hbb
        rcases hcase with ⟨hxe, hde, h3⟩ | ⟨r1, r2, hsp2, hlt, h1, h2⟩
        · subst hde
          rcases List.mem_cons.mp hsp with rfl | hm
          · rw [hb] at hbb; cases hbb; exact le_refl _
          · exact h3 sp hm bb hbb
        · rcases List.mem_cons.mp hsp with rfl | hm
          · rw [hb] at hbb; cases hbb; exact le_of_lt hlt
          · rw [hsp2] at hm
            rcases List.mem_append.mp hm with h | h
            · exact le_of_lt (h1 sp h bb hbb)
            · rcases List.mem_cons.mp h with rfl | h
              · rw [hx] at hbb; cases hbb; exact le_refl _
              · exact h2 sp h bb hbb
      · rcases hcase with ⟨hxe, hde, h3⟩ | ⟨r1, r2, hsp2, hlt, h1, h2⟩
        · subst hxe
          exact ⟨[], rest, rfl, by simp⟩
        · refine ⟨sp0 :: r1, r2, by rw [hsp2]; rfl, ?_⟩
          intro sp hsp1 bb hbb
          rcases List.mem_cons.mp hsp1 with rfl | hm
          · rw [hb] at hbb; cases hbb; exact hlt
          · exact h1 sp hm bb hbb
    | none =>
      have hloop : selectDpiSplit (sp0 :: rest) dev = selectDpiSplit rest dev := by
        simp [selectDpiSplit, dpiLoop, hb]
      have hkr : k ∈ rest := by
        rcases List.mem_cons.mp hk with rfl | hm
        · rw [hb] at hks; simp at hks
        · exact hm
      obtain ⟨c, hsel, hmem, d, hd, hglob, l1, l2, hdec, hstr⟩ := ih dev k hkr hks
      refine ⟨c, by rw [hloop]; exact hsel, List.mem_cons_of_mem _ hmem, d, hd,
        ?_, sp0 :: l1, l2, by rw [hdec]; rfl, ?_⟩
      · intro sp hsp bb hbb
        rcases List.mem_cons.mp hsp with rfl | hm
        · rw [hb] at hbb; exact Option.noConfusion hbb
        · exact hglob sp hm bb hbb
      · intro sp hsp bb hbb
        rcases List.mem_cons.mp hsp with rfl | hm
        · rw [hb] at hbb; exact Option.noConfusion hbb
        · exact hstr sp hm bb hbb

/-- Claim C7 counterexample: `config.tvdpi` is a density split
(`split_type = DPI`), yet with it as the only density split the selection
adds no density split at all, because `tvdpi` has no entry in `_dpis` —
so a nonempty density-split set does not always contribute exactly one
split. -/
theorem dpi_selection_counterexample :
    tvdpiSplit.split_type = some SplitType.DPI ∧
    selectDpiSplit [tvdpiSplit] 160 = none := by
  decide

/-- Claim C7 (amended): among the density splits whose final split-name
segment is a known `_dpis` bucket (ldpi 120, mdpi 160, hdpi 240,
xhdpi 320, xxhdpi 480, xxxhdpi 640), exactly one split is added — the
first whose canonical DPI minimizes the absolute distance to the device
density; splits with unknown buckets are never selected, and when no split
has a known bucket none is added.  In particular, with `res.ldpi` (120)
and `res.xxhdpi` (480) and device density 400, `res.xxhdpi` is selected. -/
theorem dpi_selection_amended (splits : List Apk) (dev : Int) :
    ((∀ sp ∈ splits, bucketOf sp = none) → selectDpiSplit splits dev = none) ∧
    (∀ k ∈ splits, (bucketOf k).isSome = true →
      ∃ c, selectDpiSplit splits dev = some c ∧ c ∈ splits ∧
        ∃ d, bucketOf c = some d ∧
          (∀ sp ∈ splits, ∀ b, bucketOf sp = some b →
            |d - dev| ≤ |b - dev|) ∧
          ∃ l1 l2, splits = l1 ++ c :: l2 ∧
            ∀ sp ∈ l1, ∀ b, bucketOf sp = some b → |d - dev| < |b - dev|) ∧
    (dpisGet "ldpi".data = some 120 ∧ dpisGet "mdpi".data = some 160 ∧
      dpisGet "hdpi".data = some 240 ∧ dpisGet "xhdpi".data = some 320 ∧
      dpisGet "xxhdpi".data = some 480 ∧ dpisGet "xxxhdpi".data = some 640) ∧
    selectDpiSplit [ldpiSplit, xxhdpiSplit] 400 = some xxhdpiSplit := by
  refine ⟨?_, ?_, by decide, by decide⟩
  · intro h
    simp [selectDpiSplit, dpiLoop_none_of_unknown dev splits h]
  · intro k hk hks
    exact selectDpi_argmin splits dev k hk hks

/-- Witness for the amended C7 theorem at the scenario input. -/
theorem dpi_selection_amended_witness :
    ∃ c, selectDpiSplit [ldpiSplit, xxhdpiSplit] 400 = some c ∧
      c ∈ [ldpiSplit, xxhdpiSplit] := by
  obtain ⟨c, h1, h2, _⟩ :=
    (dpi_selection_amended [ldpiSplit, xxhdpiSplit] 400).2.1 ldpiSplit
      (by simp) (by decide)
  exact ⟨c, h1, h2⟩

/-! ### Claim C8: the "others" filter and the exhausted generator -/

/-- Claim C8 evaluation at the failing input: with device ABI list
`[ARM64]` and sdk 30, the base (no ABIs) is selected; checking the
`X86_64`-only apk exhausts the `device_abis` generator, so the following
`ARM64`-only apk — compatible with the device — is rejected, while the
specification's independent per-apk check selects it. -/
theorem others_generator_eval :
    (selectOthers [baseApk, otherX64, otherA64] 30 [Abi.ARM64]).1 =
      [baseApk] ∧
    selectOthersSpec [baseApk, otherX64, otherA64] 30 [Abi.ARM64] =
      [baseApk, otherA64] ∧
    Abi.is_compatible_with .ARM64 .ARM64 = true := by
  decide

/-! ### Claim C6: `supported_screens` is never populated -/

/-- Claim C6 evaluation at the failing input: the badging text carries a
`supports-screens: 'small' 'normal'` line, the pattern captures
`small' 'normal` and splitting that capture on `'␣'` yields
`small`/`normal` — yet the parsed `supported_screens` is the empty tuple,
because the assignment guards on the key `'supports_screens'`, which is
not a key of `_extraction_patterns` (the pattern key is
`'supported_screens'`). -/
theorem supported_screens_bug_eval :
    (extractData rawScreens).supported_screens = [RMatch.one capScreens] ∧
    splitQWQ capScreens = ["small".data, "normal".data] ∧
    (ApkFile_init rawScreens).toOption.map (fun a => a.supported_screens) =
      some [] := by
  refine ⟨by decide, by decide, by decide⟩

/-- Witness for C2: a badging text holding only the two required fields is
well-formed; construction succeeds with the captured values and every
optional field at its default; and on the empty text (no package-name
line) construction raises. -/
theorem parse_required_and_defaults_witness :
    wellFormed rawMin = true ∧
    (∃ apk, ApkFile_init rawMin = .ok apk ∧
      apk.package_name = "com.ex".data ∧ apk.version_code = 7 ∧
      apk.version_name = none ∧ apk.min_sdk_version = none ∧
      apk.target_sdk_version = none ∧ apk.install_location = .AUTO ∧
      apk.labels = [] ∧ apk.permissions = [] ∧ apk.libraries = [] ∧
      apk.features = [] ∧ apk.launchable_activity = none ∧
      apk.supported_screens = [] ∧ apk.supports_any_density = false ∧
      apk.langs = [] ∧ apk.densities = [] ∧ apk.split_name = none ∧
      apk.abis = [] ∧ apk.icons = []) ∧
    (∃ e, ApkFile_init [] = .error e) := by
  refine ⟨by decide, ?_, ?_⟩
  · obtain ⟨apk, hinit, hpk, hvc, hvn, hmin, htgt, hloc, hlab, hperm, hlib,
      hfeat, hlau, hscr, hdens0, hlangs, hdens, hsn, habis, hicons⟩ :=
      (parse_required_and_defaults rawMin).1 (by decide)
    have h7 : pyInt (cap0 (extractData rawMin).version_code) = some 7 := by
      decide
    rw [h7] at hvc
    refine ⟨apk, hinit, ?_, (Option.some.inj hvc).symm, hvn (by decide),
      hmin (by decide), htgt (by decide), hloc (by decide), hlab (by decide),
      hperm (by decide), hlib (by decide), hfeat (by decide), hlau (by decide),
      hscr (by decide), hdens0 (by decide), hlangs (by decide),
      hdens (by decide), hsn (by decide), habis (by decide), hicons (by decide)⟩
    rw [hpk]; decide
  · obtain ⟨e, he⟩ :=
      (parse_required_and_defaults []).2 (Or.inl (by decide))
    exact ⟨e, he⟩

/-- Witness for C10: a badging text declaring
`install-location:'internalOnly'` still parses with
`install_location = AUTO`. -/
theorem install_location_always_auto_witness :
    (extractData rawLoc).install_location = [RMatch.one "internalOnly".data] ∧
    ((ApkFile_init rawLoc).toOption.getD dummyApk).install_location =
      InstallLocation.AUTO := by
  refine ⟨by decide, install_location_always_auto rawLoc _ ?_⟩
  rfl

/-! ### Claim C3: bundle aggregation -/

/-- `find?` over an in-place key replacement returns the replacement. -/
lemma find_map_replace (k : List Char) (v : List Char) :
    ∀ d : List (List Char × List Char), d.any (fun p => p.1 = k) = true →
      (d.map (fun p => if p.1 = k then (k, v) else p)).find?
        (fun p => p.1 = k) = some (k, v) := by
  intro d
  induction d with
  | nil => intro h; simp at h
  | cons p ps ih =>
    intro h
    by_cases hp : p.1 = k
    · simp [List.find?, hp]
    · have hps : ps.any (fun q => q.1 = k) = true := by
        rcases List.any_eq_true.mp h with ⟨q, hq, hqk⟩
        rcases List.mem_cons.mp hq with rfl | hm
        · exact absurd (of_decide_eq_true hqk) hp
        · exact List.any_eq_true.mpr ⟨q, hm, hqk⟩
      simpa [List.find?, hp] using ih hps

/-- `find?` over an appended fresh binding finds it last. -/
lemma find_append_single (k : List Char) (v : List Char) :
    ∀ d : List (List Char × List Char), d.any (fun p => p.1 = k) = false →
      (d ++ [(k, v)]).find? (fun p => p.1 = k) = some (k, v) := by
  intro d
  induction d with
  | nil => simp [List.find?]
  | cons p ps ih =>
    intro h
    simp only [List.any_cons, Bool.or_eq_false_iff] at h
    have hp : ¬(p.1 = k) := by simpa using h.1
    simpa [List.find?, hp] using ih h.2

/-- Replacement at a different key does not change a `find?`. -/
lemma find_map_replace_ne (k v k' : List Char) (hne : k ≠ k') :
    ∀ d : List (List Char × List Char),
      (d.map (fun p => if p.1 = k then (k, v) else p)).find?
          (fun p => p.1 = k') =
        d.find? (fun p => p.1 = k') := by
  intro d
  induction d with
  | nil => rfl
  | cons p ps ih =>
    by_cases hp : p.1 = k
    · have hf : (decide (p.1 = k')) = false := by simp [hp, hne]
      have hg : (decide (((k, v) : List Char × List Char).1 = k')) = false := by
        simp [hne]
      simp only [List.map_cons, if_pos hp, List.find?, hf, hg]
      exact ih
    · simp only [List.map_cons, if_neg hp, List.find?]
      cases decide (p.1 = k')
      · exact ih
      · rfl

/-- Looking up the inserted key returns the inserted value. -/
lemma dictLookup_insert_self (d : List (List Char × List Char))
    (k v : List Char) : dictLookup (dictInsert d k v) k = some v := by
  unfold dictInsert
  split
  case isTrue h => simp [dictLookup, find_map_replace k v d h]
  case isFalse h =>
    simp only [Bool.not_eq_true] at h
    simp [dictLookup, find_append_single k v d h]

/-- Inserting a different key does not change a lookup. -/
lemma dictLookup_insert_ne (d : List (List Char × List Char))
    (k v k' : List Char) (hne : k ≠ k') :
    dictLookup (dictInsert d k v) k' = dictLookup d k' := by
  unfold dictInsert
  split
  case isTrue h =>
    unfold dictLookup
    rw [find_map_replace_ne k v k' hne d]
  case isFalse h =>
    unfold dictLookup
    rw [List.find?_append]
    have hone : List.find? (fun p => decide (p.1 = k')) [(k, v)] = none := by
      simp [List.find?, hne]
    rw [hone]
    cases List.find? (fun p => decide (p.1 = k')) d <;> rfl

/-- Lookup in a dict built from an item stream with an accumulator:
the last matching item wins, falling back to the accumulator. -/
lemma dictLookup_foldl :
    ∀ (items : List (List Char × List Char))
      (acc : List (List Char × List Char)) (k : List Char),
      dictLookup (items.foldl (fun d p => dictInsert d p.1 p.2) acc) k =
        match (items.filter (fun p => p.1 = k)).getLast? with
        | some q => some q.2
        | none => dictLookup acc k := by
  intro items
  induction items with
  | nil => intro acc k; rfl
  | cons p ps ih =>
    intro acc k
    simp only [List.foldl_cons]
    rw [ih]
    by_cases hp : p.1 = k
    · simp only [List.filter_cons, hp, decide_True, if_true]
      cases hgl : (ps.filter (fun q => q.1 = k)).getLast?
      · have hfe : ps.filter (fun q => q.1 = k) = [] := by
          simpa [List.getLast?_eq_none_iff] using hgl
        rw [hfe]
        show dictLookup (dictInsert acc k p.2) k = some p.2
        exact dictLookup_insert_self acc k p.2
      · simp [List.getLast?_cons, hgl, List.getLastD_eq_getLast?]
    · simp only [List.filter_cons, hp]
      rw [dictLookup_insert_ne acc p.1 p.2 k hp]
      simp

/-- Last-writer-wins lookup of the Python dict comprehension. -/
lemma dictLookup_pyDictOf (items : List (List Char × List Char))
    (k : List Char) :
    dictLookup (pyDictOf items) k =
      ((items.filter (fun p => p.1 = k)).getLast?).map (fun p => p.2) := by
  unfold pyDictOf
  rw [dictLookup_foldl items [] k]
  cases (items.filter (fun p => p.1 = k)).getLast? <;> rfl

/-- Claim C3 (amended, scoped to the `apkfile/__init__.py` revision of
`_BaseZipApkFile._extract`): after a successful extraction of a fresh
bundle, `permissions`, `features`, `libraries`, `langs` and `abis` each
hold the union of the field over the base and every successfully parsed
split; `package_name`, `version_code`, `version_name`, `min_sdk_version`,
`target_sdk_version`, `supported_screens`, `launchable_activity`,
`densities` and `supports_any_density` are taken from the base alone; and
`labels` is the merge of the split label dicts followed by the base label
dict, the last writer winning on a duplicate locale key (so the base wins
over every split).  The `apkfile/_zip_apk.py` revision violates the `abis`
clause (see the counterexample), which never reassigns `abis` after
setting it to the empty tuple at construction. -/
theorem bundle_aggregation (env : ZipEnv) (stR : ZipState)
    (h : zipExtract env ZipState.init = (stR, none)) :
    ∃ b sps, stR.base = some b ∧ stR.splits = some sps ∧
      stR.package_name = some b.package_name ∧
      stR.version_code = some b.version_code ∧
      stR.version_name = some b.version_name ∧
      stR.min_sdk_version = some b.min_sdk_version ∧
      stR.target_sdk_version = some b.target_sdk_version ∧
      stR.supported_screens = some b.supported_screens ∧
      stR.launchable_activity = some b.launchable_activity ∧
      stR.densities = some b.densities ∧
      stR.supports_any_density = some b.supports_any_density ∧
      stR.permissions = some ((sps.flatMap (fun s => s.permissions)).toFinset
        ∪ b.permissions.toFinset) ∧
      stR.features = some ((sps.flatMap (fun s => s.features)).toFinset
        ∪ b.features.toFinset) ∧
      stR.libraries = some ((sps.flatMap (fun s => s.libraries)).toFinset
        ∪ b.libraries.toFinset) ∧
      stR.langs = some ((sps.flatMap (fun s => s.langs)).toFinset
        ∪ b.langs.toFinset) ∧
      stR.abis = some ((sps.flatMap (fun s => s.abis)).toFinset
        ∪ b.abis.toFinset) ∧
      stR.labels = some (mergedLabels b sps) ∧
      (∀ k, dictLookup (mergedLabels b sps) k =
        (((sps.flatMap (fun s => s.labels) ++ b.labels).filter
          (fun p => p.1 = k)).getLast?).map (fun p => p.2)) := by
  unfold zipExtract at h
  rw [if_neg (by simp [ZipState.init])] at h
  split at h
  · exact absurd (congrArg Prod.snd h) (by simp)
  · dsimp only at h
    split at h
    · exact absurd (congrArg Prod.snd h) (by simp)
    case h_2 base hbase =>
      split at h
      · exact absurd (congrArg Prod.snd h) (by simp)
      case h_2 splits hsplits =>
        have hst : stR = _ := (Prod.mk.injEq _ _ _ _ ▸ h).1.symm
        refine ⟨base, splits, ?_⟩
        rw [hst]
        refine ⟨rfl, rfl, rfl, rfl, rfl, rfl, rfl, rfl, rfl, rfl, rfl,
          rfl, rfl, rfl, rfl, rfl, rfl, ?_⟩
        intro k
        exact dictLookup_pyDictOf _ k

/-- Claim C3 counterexample: in the `apkfile/_zip_apk.py` revision,
extracting a bundle whose base declares `abis = [ARM]` (and which has no
splits) succeeds, yet the aggregated `abis` attribute stays the empty set
assigned at construction instead of the union `{ARM}` the claim
requires. -/
theorem bundle_abis_counterexample :
    (zipExtractOld envOldC ZipState.initOld).2 = none ∧
    (zipExtractOld envOldC ZipState.initOld).1.base = some apkBaseArm ∧
    (zipExtractOld envOldC ZipState.initOld).1.splits = some [] ∧
    apkBaseArm.abis = [Abi.ARM] ∧
    (zipExtractOld envOldC ZipState.initOld).1.abis = some (∅ : Finset Abi) ∧
    (zipExtractOld envOldC ZipState.initOld).1.abis ≠
      some ((([] : List Apk).flatMap (fun s => s.abis)).toFinset
        ∪ apkBaseArm.abis.toFinset) := by
  refine ⟨by decide, by decide, by decide, by decide, by decide, by decide⟩

/-- Witness for the amended C3 theorem: a concrete bundle with one split;
the aggregated sets hold the members of base and split, scalars come from
the base, and on the duplicated locale key `en` the base label wins while
the split-only key `fr` comes from the split. -/
theorem bundle_aggregation_witness :
    (zipExtract envW ZipState.init).1.base = some apkBaseW ∧
    (zipExtract envW ZipState.init).1.splits = some [splitW] ∧
    (zipExtract envW ZipState.init).1.package_name = some "com.ex".data ∧
    "p1".data ∈ ((zipExtract envW ZipState.init).1.permissions.getD ∅) ∧
    "p2".data ∈ ((zipExtract envW ZipState.init).1.permissions.getD ∅) ∧
    "fr".data ∈ ((zipExtract envW ZipState.init).1.langs.getD ∅) ∧
    Abi.ARM7 ∈ ((zipExtract envW ZipState.init).1.abis.getD ∅) ∧
    dictLookup ((zipExtract envW ZipState.init).1.labels.getD [])
      "en".data = some "Base".data ∧
    dictLookup ((zipExtract envW ZipState.init).1.labels.getD [])
      "fr".data = some "S2".data := by
  obtain ⟨b, sps, hb, hsp, hpkg, _, _, _, _, _, _, _, _, hperm, _, _,
    hlang, habis, hlab, _⟩ :=
    bundle_aggregation envW ((zipExtract envW ZipState.init).1) (by rfl)
  have hbb : b = apkBaseW := by
    have hx : (zipExtract envW ZipState.init).1.base = some apkBaseW := by rfl
    exact Option.some.inj (hb.symm.trans hx)
  have hss : sps = [splitW] := by
    have hx : (zipExtract envW ZipState.init).1.splits = some [splitW] := by rfl
    exact Option.some.inj (hsp.symm.trans hx)
  subst hbb; subst hss
  refine ⟨hb, hsp, hpkg, ?_, ?_, ?_, ?_, ?_, ?_⟩
  · rw [hperm]; simp [splitW, apkBaseW, mkApk]
  · rw [hperm]; simp [splitW, apkBaseW, mkApk]
  · rw [hlang]; simp [splitW, apkBaseW, mkApk]
  · rw [habis]; simp [splitW, apkBaseW, mkApk]
  · rw [hlab]; decide
  · rw [hlab]; decide

